import Mathlib

/-!
Keyboard challenge-response authentication: host PAM module and QMK responder.

A shallow embedding of `pam_keyboard_auth.c` (host side) and
`sample_qmk/keymap.c` (device side).

Conventions
* A C byte array is a `List Nat`; every value that the program stores is a
  byte (`< 256`) as soon as its inputs are, because the only arithmetic is
  the exclusive-or of two bytes (see `Bytes` and `packets_are_bytes`).
* `buf.getD i 0` is the C read `buf[i]`; `buf.set i v` is the C write
  `buf[i] = v`.  A read past the end of a list yields `0`.
* The outside world of the host (key file, HID library, `/dev/urandom`) is a
  record `HostEnv` of the answers the library calls give.
* External calls that matter for the protocol are recorded in a trace.
-/

namespace PamKeyboardAuth

/-! ## Constants -/

/-- Host and device: `#define SECURITY_CHALLENGE_SIZE 32`. -/
def SECURITY_CHALLENGE_SIZE : Nat := 32
/-- Host: `#define PACKET_SIZE 64`. -/
def PACKET_SIZE : Nat := 64
/-- Device: `#define CMD_AUTH_START 0x01`. -/
def CMD_AUTH_START : Nat := 0x01
/-- Host and device: `#define CMD_CHALLENGE 0x02`. -/
def CMD_CHALLENGE : Nat := 0x02
/-- Host and device: `#define CMD_RESPONSE 0x03`. -/
def CMD_RESPONSE : Nat := 0x03
/-- Host: `#define KEY_SIZE 4`. -/
def KEY_SIZE : Nat := 4
/-- Host: `#define RAW_USAGE_PAGE 0xFF60`. -/
def RAW_USAGE_PAGE : Nat := 0xFF60
/-- Host: `#define RAW_USAGE_ID 0x61`. -/
def RAW_USAGE_ID : Nat := 0x61
/-- Linux-PAM `PAM_SUCCESS`. -/
def PAM_SUCCESS : Int := 0
/-- Linux-PAM `PAM_AUTH_ERR`. -/
def PAM_AUTH_ERR : Int := 7

/-! ## Byte arrays -/

/-- All entries of the array are bytes. -/
def Bytes (l : List Nat) : Prop := ∀ b ∈ l, b < 256

/-- C `memcpy(&dst[off], &src[srcOff], n)`. -/
def memcpy (dst : List Nat) (off : Nat) (src : List Nat) (srcOff n : Nat) : List Nat :=
  (List.range n).foldl (fun b i => b.set (off + i) (src.getD (srcOff + i) 0)) dst

/-- C `memcmp(a, b, n) == 0` for arrays holding at least `n` bytes. -/
def memcmp_eq (a b : List Nat) (n : Nat) : Bool :=
  decide (a.take n = b.take n)

/-! ## Device side (`sample_qmk/keymap.c`) -/

/-- The globals `last_challenge` and `challenge_received`, together with the
frames handed to `raw_hid_send` so far (oldest first). -/
structure DeviceState where
  last_challenge : List Nat
  challenge_received : Bool
  sent : List (List Nat)
deriving DecidableEq, Repr

/-- State after reset: both globals zero-initialised, nothing sent. -/
def idle : DeviceState :=
  { last_challenge := List.replicate SECURITY_CHALLENGE_SIZE 0
    challenge_received := false
    sent := [] }

/-- Device `raw_hid_receive(data, length)`. -/
def raw_hid_receive (st : DeviceState) (data : List Nat) : DeviceState :=
  if data.getD 0 0 = CMD_CHALLENGE then
    { st with
      last_challenge := memcpy st.last_challenge 0 data 1 SECURITY_CHALLENGE_SIZE
      challenge_received := true }
  else st

/-- QMK `raw_hid_send(data, length)`: the frame goes out on the wire. -/
def raw_hid_send (st : DeviceState) (data : List Nat) : DeviceState :=
  { st with sent := st.sent ++ [data] }

/-- QMK `wait_ms(100)` inside `send_auth_response`: `arrivals` are the frames
delivered to `raw_hid_receive` while the device waits (none when the firmware
does not service the endpoint during the delay). -/
def wait_ms (arrivals : List (List Nat)) (st : DeviceState) : DeviceState :=
  arrivals.foldl raw_hid_receive st

/-- Device: `uint8_t start[32] = {CMD_AUTH_START};`. -/
def start_packet : List Nat := (List.replicate 32 0).set 0 CMD_AUTH_START

/-- Device: `uint8_t response[32] = {CMD_RESPONSE};` followed by the loop
`response[i + 1] = last_challenge[i] ^ AUTH_KEY[i % sizeof(AUTH_KEY)]` for
`i < SECURITY_CHALLENGE_SIZE - 1`.  `AUTH_KEY` comes from `secrets.h`. -/
def response_packet (last_challenge AUTH_KEY : List Nat) : List Nat :=
  (List.range (SECURITY_CHALLENGE_SIZE - 1)).foldl
    (fun response i =>
      response.set (i + 1) (last_challenge.getD i 0 ^^^ AUTH_KEY.getD (i % AUTH_KEY.length) 0))
    ((List.replicate 32 0).set 0 CMD_RESPONSE)

/-- Device `send_auth_response()`. -/
def send_auth_response (AUTH_KEY : List Nat) (arrivals : List (List Nat))
    (st : DeviceState) : DeviceState :=
  let st1 :=
    if !st.challenge_received then
      wait_ms arrivals (raw_hid_send st start_packet)
    else st
  if st1.challenge_received then
    { raw_hid_send st1 (response_packet st1.last_challenge AUTH_KEY) with
      challenge_received := false }
  else st1

/-- What happens to the device: a frame arrives, or the user presses the
authentication key (`process_record_user` calls `send_auth_response`). -/
inductive DeviceEvent where
  | receive (data : List Nat)
  | trigger (arrivals : List (List Nat))
deriving DecidableEq, Repr

/-- One device event. -/
def deviceStep (AUTH_KEY : List Nat) (st : DeviceState) : DeviceEvent → DeviceState
  | .receive data => raw_hid_receive st data
  | .trigger arrivals => send_auth_response AUTH_KEY arrivals st

/-- A sequence of device events, in order. -/
def deviceRun (AUTH_KEY : List Nat) (st : DeviceState) (es : List DeviceEvent) : DeviceState :=
  es.foldl (deviceStep AUTH_KEY) st

/-- The frame carries the given command tag in byte 0. -/
def hasTag (tag : Nat) (frame : List Nat) : Bool := frame.getD 0 0 == tag

/-- Number of RESPONSE frames among the frames sent. -/
def responsesSent (st : DeviceState) : Nat := st.sent.countP (hasTag CMD_RESPONSE)

/-- Number of CHALLENGE frames delivered to `raw_hid_receive` by an event. -/
def challengesOf : DeviceEvent → Nat
  | .receive data => if hasTag CMD_CHALLENGE data then 1 else 0
  | .trigger arrivals => arrivals.countP (hasTag CMD_CHALLENGE)

/-- Number of CHALLENGE frames delivered to `raw_hid_receive` by a sequence
of events. -/
def challengesReceived (es : List DeviceEvent) : Nat := (es.map challengesOf).sum

/-! ## Host side (`pam_keyboard_auth.c`) -/

/-- What `stat`, `fopen` and `fread` find at `KEY_FILE`: the mode bits, whether
the file can be opened for reading, and the bytes it holds. -/
structure KeyFile where
  st_mode : Nat
  fopen_ok : Bool
  content : List Nat
deriving DecidableEq, Repr

/-- One entry of the list returned by `hid_enumerate`; `opens` tells whether
`hid_open_path` on its path yields a handle. -/
structure HidDeviceInfo where
  usage_page : Nat
  usage : Nat
  opens : Bool
deriving DecidableEq, Repr

/-- What `hid_read_timeout` meets: an I/O error, no report within the
timeout, or a report from the device. -/
inductive HidRead where
  | error
  | timeout
  | report (data : List Nat)
deriving DecidableEq, Repr

/-- The answers of the outside world to one run of `pam_sm_authenticate`.
`key_file = none` means `stat` fails; `hid_init_ret` is what `hid_init`
returns; `urandom = none` means `/dev/urandom` cannot be opened, otherwise it
holds the bytes `fread` can obtain; `hid_write_ret` is what `hid_write`
returns. -/
structure HostEnv where
  key_file : Option KeyFile
  hid_init_ret : Int
  devs : List HidDeviceInfo
  urandom : Option (List Nat)
  hid_write_ret : Int
  hid_read : HidRead
deriving DecidableEq, Repr

/-- Calls into the HID library, in the order the host makes them.  A handle
is named by the position of its device in the enumeration. -/
inductive Effect where
  | hid_init
  | hid_enumerate
  | hid_open_path (index : Nat) (handle : Bool)
  | hid_free_enumeration
  | hid_write (device : Nat) (data : List Nat)
  | hid_read_timeout (device : Nat)
  | hid_close (device : Nat)
  | hid_exit
deriving DecidableEq, Repr

/-- C `fread(buf, 1, n, f)` on a stream holding `content`: the bytes stored
(their number is the return value). -/
def fread (content : List Nat) (n : Nat) : List Nat := content.take n

/-- Host `read_auth_key(key)`: `none` is the return value `-1`, `some key` is
the return value `0` with the buffer contents. -/
def read_auth_key (key_file : Option KeyFile) : Option (List Nat) :=
  match key_file with
  | none => none
  | some st =>
    if st.st_mode &&& 0o77 ≠ 0 then none
    else if !st.fopen_ok then none
    else
      let key := fread st.content KEY_SIZE
      let bytes_read := key.length
      if bytes_read ≠ KEY_SIZE then none
      else some key

/-- Host, the loop over the enumeration: the first entry with the raw usage
page and usage whose path opens gives the handle. -/
def open_matching : List HidDeviceInfo → Nat → Option Nat × List Effect
  | [], _ => (none, [])
  | cur_dev :: next, index =>
    if cur_dev.usage_page = RAW_USAGE_PAGE ∧ cur_dev.usage = RAW_USAGE_ID then
      if cur_dev.opens then (some index, [Effect.hid_open_path index true])
      else
        let r := open_matching next (index + 1)
        (r.1, Effect.hid_open_path index false :: r.2)
    else open_matching next (index + 1)

/-- Host: `buffer[PACKET_SIZE] = {0}; buffer[0] = CMD_CHALLENGE;
memcpy(&buffer[1], challenge, SECURITY_CHALLENGE_SIZE);`. -/
def challenge_packet (challenge : List Nat) : List Nat :=
  let buffer := List.replicate PACKET_SIZE 0
  let buffer := buffer.set 0 CMD_CHALLENGE
  memcpy buffer 1 challenge 0 SECURITY_CHALLENGE_SIZE

/-- Host: `memset(buffer, 0, PACKET_SIZE)` then
`hid_read_timeout(device, buffer, PACKET_SIZE, READ_TIMEOUT_MS)`: the return
value and the buffer afterwards. -/
def hid_read_timeout (r : HidRead) (length : Nat) : Int × List Nat :=
  let buffer := List.replicate length 0
  match r with
  | .error => (-1, buffer)
  | .timeout => (0, buffer)
  | .report data =>
    let got := data.take length
    ((got.length : Int), memcpy buffer 0 got 0 got.length)

/-- Host: the array `expected` after the loop
`expected[i] = challenge[i] ^ auth_key[i % KEY_SIZE]`. -/
def expected_response (challenge auth_key : List Nat) : List Nat :=
  (List.range (SECURITY_CHALLENGE_SIZE - 1)).foldl
    (fun expected i =>
      expected.set i (challenge.getD i 0 ^^^ auth_key.getD (i % KEY_SIZE) 0))
    (List.replicate (SECURITY_CHALLENGE_SIZE - 1) 0)

/-- Host: `memcmp(expected, &buffer[1], SECURITY_CHALLENGE_SIZE - 1) == 0`. -/
def verify_response (challenge auth_key buffer : List Nat) : Bool :=
  memcmp_eq (expected_response challenge auth_key) (buffer.drop 1)
    (SECURITY_CHALLENGE_SIZE - 1)

/-- Host, label `cleanup:`. -/
def cleanup (device : Option Nat) (result : Int) (trace : List Effect) : Int × List Effect :=
  match device with
  | some d => (result, trace ++ [Effect.hid_close d, Effect.hid_exit])
  | none => (result, trace ++ [Effect.hid_exit])

/-- Host `pam_sm_authenticate`: the return value and the HID library calls
made. -/
def pam_sm_authenticate (env : HostEnv) : Int × List Effect :=
  let result := PAM_AUTH_ERR
  match read_auth_key env.key_file with
  | none => cleanup none result []
  | some auth_key =>
    if env.hid_init_ret ≠ 0 then cleanup none result [Effect.hid_init]
    else
      let found := open_matching env.devs 0
      let trace := [Effect.hid_init, Effect.hid_enumerate] ++ found.2
        ++ [Effect.hid_free_enumeration]
      match found.1 with
      | none => cleanup none result trace
      | some device =>
        match env.urandom with
        | none => cleanup (some device) result trace
        | some random =>
          let challenge := fread random SECURITY_CHALLENGE_SIZE
          if challenge.length ≠ SECURITY_CHALLENGE_SIZE then
            cleanup (some device) result trace
          else
            let trace := trace ++ [Effect.hid_write device (challenge_packet challenge)]
            if env.hid_write_ret = -1 then cleanup (some device) result trace
            else
              let rd := hid_read_timeout env.hid_read PACKET_SIZE
              let bytes_read := rd.1
              let buffer := rd.2
              let trace := trace ++ [Effect.hid_read_timeout device]
              if bytes_read ≤ 0 then cleanup (some device) result trace
              else if buffer.getD 0 0 ≠ CMD_RESPONSE then cleanup (some device) result trace
              else if verify_response challenge auth_key buffer then
                cleanup (some device) PAM_SUCCESS trace
              else cleanup (some device) result trace

/-- The call hands out a device handle. -/
def Effect.opensHandle : Effect → Bool
  | .hid_open_path _ true => true
  | _ => false

/-- The handle a call operates on, for the calls that take one. -/
def Effect.onHandle : Effect → Option Nat
  | .hid_write device _ => some device
  | .hid_read_timeout device => some device
  | .hid_close device => some device
  | _ => none

/-! ## Sample data (the end-to-end scenario) -/

/-- Secret `[0x01, 0x02, 0x03, 0x04]`. -/
def sampleSecret : List Nat := [0x01, 0x02, 0x03, 0x04]

/-- Challenge of 32 bytes `0xAA`. -/
def sampleChallenge : List Nat := List.replicate 32 0xAA

/-- The RESPONSE frame a device holding `sampleSecret` sends for
`sampleChallenge`. -/
def sampleResponse : List Nat :=
  [0x03, 0xAB, 0xA8, 0xA9, 0xAE, 0xAB, 0xA8, 0xA9, 0xAE, 0xAB, 0xA8, 0xA9, 0xAE,
    0xAB, 0xA8, 0xA9, 0xAE, 0xAB, 0xA8, 0xA9, 0xAE, 0xAB, 0xA8, 0xA9, 0xAE,
    0xAB, 0xA8, 0xA9, 0xAE, 0xAB, 0xA8, 0xA9]

/-- A key file with mode `0400` holding `sampleSecret`. -/
def sampleKeyFile : KeyFile :=
  { st_mode := 0o100400, fopen_ok := true, content := sampleSecret }

/-- A run in which everything goes well: the second enumerated device is the
keyboard, the random source yields `sampleChallenge`, and the keyboard
answers with `sampleResponse`. -/
def sampleEnv : HostEnv :=
  { key_file := some sampleKeyFile
    hid_init_ret := 0
    devs := [⟨0x01, 0x06, true⟩, ⟨RAW_USAGE_PAGE, RAW_USAGE_ID, true⟩]
    urandom := some (List.replicate 48 0xAA)
    hid_write_ret := 64
    hid_read := HidRead.report sampleResponse }

/-! ## Array loops -/

theorem setLoop_length (f : Nat → Nat) (off n : Nat) (buf : List Nat) :
    ((List.range n).foldl (fun b i => b.set (i + off) (f i)) buf).length = buf.length := by
  induction n with
  | zero => simp
  | succ n ih => simp [List.range_succ, List.foldl_append, ih]

theorem setLoop_getElem? (f : Nat → Nat) (off n : Nat) (buf : List Nat) (j : Nat) :
    ((List.range n).foldl (fun b i => b.set (i + off) (f i)) buf)[j]? =
      if off ≤ j ∧ j < off + n ∧ j < buf.length then some (f (j - off)) else buf[j]? := by
  induction n with
  | zero =>
    have h : ¬ (off ≤ j ∧ j < off + 0 ∧ j < buf.length) := by omega
    simp only [List.range_zero, List.foldl_nil, h, if_false]
  | succ n ih =>
    simp only [List.range_succ, List.foldl_append, List.foldl_cons, List.foldl_nil]
    rw [List.getElem?_set, setLoop_length, ih]
    by_cases h : n + off = j
    · subst h
      by_cases hb : n + off < buf.length
      · have h2 : off ≤ n + off ∧ n + off < off + (n + 1) ∧ n + off < buf.length :=
          ⟨by omega, by omega, hb⟩
        simp [hb, h2]
      · have : buf[n + off]? = none := by simp; omega
        simp [hb, this]
    · simp only [h, if_false]
      by_cases h1 : off ≤ j ∧ j < off + n ∧ j < buf.length
      · have h2 : off ≤ j ∧ j < off + (n + 1) ∧ j < buf.length := ⟨h1.1, by omega, h1.2.2⟩
        simp [h1, h2]
      · have h2 : ¬ (off ≤ j ∧ j < off + (n + 1) ∧ j < buf.length) := by
          intro h3
          exact h1 ⟨h3.1, by omega, h3.2.2⟩
        simp [h1, h2]

theorem setLoop_getD (f : Nat → Nat) (off n : Nat) (buf : List Nat) (j : Nat) :
    ((List.range n).foldl (fun b i => b.set (i + off) (f i)) buf).getD j 0 =
      if off ≤ j ∧ j < off + n ∧ j < buf.length then f (j - off) else buf.getD j 0 := by
  rw [List.getD_eq_getElem?_getD, setLoop_getElem?, List.getD_eq_getElem?_getD]
  split <;> rfl

theorem memcpy_length (dst : List Nat) (off : Nat) (src : List Nat) (srcOff n : Nat) :
    (memcpy dst off src srcOff n).length = dst.length := by
  have h : (fun (b : List Nat) i => b.set (off + i) (src.getD (srcOff + i) 0))
      = (fun b i => b.set (i + off) (src.getD (srcOff + i) 0)) := by
    funext b i; rw [Nat.add_comm]
  unfold memcpy
  rw [h, setLoop_length]

theorem memcpy_getD (dst : List Nat) (off : Nat) (src : List Nat) (srcOff n j : Nat) :
    (memcpy dst off src srcOff n).getD j 0 =
      if off ≤ j ∧ j < off + n ∧ j < dst.length then src.getD (srcOff + (j - off)) 0
      else dst.getD j 0 := by
  have h : (fun (b : List Nat) i => b.set (off + i) (src.getD (srcOff + i) 0))
      = (fun b i => b.set (i + off) (src.getD (srcOff + i) 0)) := by
    funext b i; rw [Nat.add_comm]
  unfold memcpy
  rw [h, setLoop_getD (fun i => src.getD (srcOff + i) 0)]

theorem ext_getD (a b : List Nat) (hl : a.length = b.length)
    (h : ∀ j, j < a.length → a.getD j 0 = b.getD j 0) : a = b := by
  apply List.ext_getElem hl
  intro j h1 h2
  have := h j h1
  simpa [List.getD_eq_getElem?_getD, h1, h2] using this

/-! ## The packets -/

theorem challenge_packet_length (challenge : List Nat) :
    (challenge_packet challenge).length = 64 := by
  simp [challenge_packet, memcpy_length, PACKET_SIZE]

theorem challenge_packet_getD (challenge : List Nat) (j : Nat) :
    (challenge_packet challenge).getD j 0 =
      if j = 0 then CMD_CHALLENGE else if j ≤ 32 then challenge.getD (j - 1) 0 else 0 := by
  unfold challenge_packet
  simp only [memcpy_getD, List.length_set, List.length_replicate, PACKET_SIZE,
    SECURITY_CHALLENGE_SIZE, Nat.zero_add]
  by_cases h0 : j = 0
  · subst h0
    simp
  · by_cases h1 : j ≤ 32
    · have h2 : 1 ≤ j ∧ j < 1 + 32 ∧ j < 64 := by omega
      simp [h0, h1, h2]
    · have h2 : ¬ (1 ≤ j ∧ j < 1 + 32 ∧ j < 64) := by omega
      simp only [h0, h1, h2, if_false]
      rw [List.getD_eq_getElem?_getD, List.getElem?_set]
      have h3 : ¬ (0 = j) := by omega
      simp only [h3, if_false]
      rw [List.getElem?_replicate]
      split <;> rfl

theorem expected_response_length (challenge auth_key : List Nat) :
    (expected_response challenge auth_key).length = 31 := by
  unfold expected_response
  exact (setLoop_length (fun i => challenge.getD i 0 ^^^ auth_key.getD (i % KEY_SIZE) 0)
    0 _ _).trans (by simp [SECURITY_CHALLENGE_SIZE])

theorem expected_response_getD (challenge auth_key : List Nat) (i : Nat) (hi : i < 31) :
    (expected_response challenge auth_key).getD i 0
      = challenge.getD i 0 ^^^ auth_key.getD (i % 4) 0 := by
  unfold expected_response
  have h := setLoop_getD (fun i => challenge.getD i 0 ^^^ auth_key.getD (i % KEY_SIZE) 0)
    0 (SECURITY_CHALLENGE_SIZE - 1) (List.replicate (SECURITY_CHALLENGE_SIZE - 1) 0) i
  simp only [Nat.add_zero] at h
  have h2 : 0 ≤ i ∧ i < 0 + (SECURITY_CHALLENGE_SIZE - 1)
      ∧ i < (List.replicate (SECURITY_CHALLENGE_SIZE - 1) 0).length := by
    simp [SECURITY_CHALLENGE_SIZE]; omega
  rw [h, if_pos h2, Nat.sub_zero]
  rfl

theorem response_packet_length (last_challenge AUTH_KEY : List Nat) :
    (response_packet last_challenge AUTH_KEY).length = 32 := by
  unfold response_packet
  rw [setLoop_length (fun i => last_challenge.getD i 0 ^^^ AUTH_KEY.getD (i % AUTH_KEY.length) 0)]
  simp

theorem response_packet_tag (last_challenge AUTH_KEY : List Nat) :
    (response_packet last_challenge AUTH_KEY).getD 0 0 = CMD_RESPONSE := by
  unfold response_packet
  rw [setLoop_getD (fun i => last_challenge.getD i 0 ^^^ AUTH_KEY.getD (i % AUTH_KEY.length) 0)]
  simp

theorem response_packet_getD (last_challenge AUTH_KEY : List Nat) (i : Nat) (hi : i < 31) :
    (response_packet last_challenge AUTH_KEY).getD (i + 1) 0
      = last_challenge.getD i 0 ^^^ AUTH_KEY.getD (i % AUTH_KEY.length) 0 := by
  unfold response_packet
  have h2 : 1 ≤ i + 1 ∧ i + 1 < 1 + (SECURITY_CHALLENGE_SIZE - 1)
      ∧ i + 1 < ((List.replicate 32 0).set 0 CMD_RESPONSE).length := by
    simp [SECURITY_CHALLENGE_SIZE]; omega
  rw [setLoop_getD (fun i => last_challenge.getD i 0 ^^^ AUTH_KEY.getD (i % AUTH_KEY.length) 0),
    if_pos h2, Nat.add_sub_cancel]

theorem start_packet_eq : start_packet = 1 :: List.replicate 31 0 := by decide

/-! ## Bytes stay bytes -/

theorem Bytes_getD (l : List Nat) (h : Bytes l) (i : Nat) : l.getD i 0 < 256 := by
  rw [List.getD_eq_getElem?_getD]
  by_cases hi : i < l.length
  · rw [List.getElem?_eq_getElem hi]
    exact h _ (List.getElem_mem hi)
  · rw [List.getElem?_eq_none (by omega)]
    decide

theorem Bytes_set (l : List Nat) (h : Bytes l) (i v : Nat) (hv : v < 256) :
    Bytes (l.set i v) := by
  intro b hb
  rcases List.mem_or_eq_of_mem_set hb with hb | hb
  · exact h b hb
  · rw [hb]; exact hv

theorem Bytes_setLoop (f : Nat → Nat) (hf : ∀ i, f i < 256) (off n : Nat) (buf : List Nat)
    (h : Bytes buf) :
    Bytes ((List.range n).foldl (fun b i => b.set (i + off) (f i)) buf) := by
  induction n with
  | zero => simpa using h
  | succ n ih =>
    simp only [List.range_succ, List.foldl_append, List.foldl_cons, List.foldl_nil]
    exact Bytes_set _ ih _ _ (hf n)

theorem Bytes_xor (a b : Nat) (ha : a < 256) (hb : b < 256) : a ^^^ b < 256 :=
  Nat.xor_lt_two_pow (n := 8) ha hb

theorem Bytes_replicate_zero (n : Nat) : Bytes (List.replicate n 0) := by
  intro b hb
  rw [List.eq_of_mem_replicate hb]
  decide

/-- The three packets and the host's expected response consist of bytes
whenever the challenge and the key do: no byte-sized store ever truncates. -/
theorem packets_are_bytes (challenge key : List Nat) (hc : Bytes challenge) (hk : Bytes key) :
    Bytes (challenge_packet challenge) ∧ Bytes (expected_response challenge key)
      ∧ Bytes start_packet ∧ Bytes (response_packet challenge key) := by
  refine ⟨?_, ?_, ?_, ?_⟩
  · have h : (fun (b : List Nat) i => b.set (1 + i) (challenge.getD (0 + i) 0))
        = (fun b i => b.set (i + 1) (challenge.getD (0 + i) 0)) := by
      funext b i; rw [Nat.add_comm]
    unfold challenge_packet memcpy
    rw [h]
    exact Bytes_setLoop (fun i => challenge.getD (0 + i) 0) (fun i => Bytes_getD _ hc _) 1 _ _
      (Bytes_set _ (Bytes_replicate_zero _) _ _ (by decide))
  · unfold expected_response
    exact Bytes_setLoop (fun i => challenge.getD i 0 ^^^ key.getD (i % KEY_SIZE) 0)
      (fun i => Bytes_xor _ _ (Bytes_getD _ hc _) (Bytes_getD _ hk _)) 0 _ _
      (Bytes_replicate_zero _)
  · intro b hb
    rw [start_packet_eq] at hb
    rcases List.mem_cons.mp hb with hb | hb
    · rw [hb]; decide
    · rw [List.eq_of_mem_replicate hb]; decide
  · unfold response_packet
    exact Bytes_setLoop (fun i => challenge.getD i 0 ^^^ key.getD (i % key.length) 0)
      (fun i => Bytes_xor _ _ (Bytes_getD _ hc _) (Bytes_getD _ hk _)) 1 _ _
      (Bytes_set _ (Bytes_replicate_zero _) _ _ (by decide))

/-! ## Device state -/

theorem raw_hid_receive_sent (st : DeviceState) (data : List Nat) :
    (raw_hid_receive st data).sent = st.sent := by
  unfold raw_hid_receive
  split <;> rfl

theorem raw_hid_receive_flag (st : DeviceState) (data : List Nat) :
    (raw_hid_receive st data).challenge_received
      = (st.challenge_received || hasTag CMD_CHALLENGE data) := by
  unfold raw_hid_receive hasTag
  by_cases h : data.getD 0 0 = CMD_CHALLENGE
  · rw [if_pos h, h]
    simp
  · rw [if_neg h]
    have h2 : (data.getD 0 0 == CMD_CHALLENGE) = false := by simpa using h
    rw [h2, Bool.or_false]

theorem raw_hid_receive_length (st : DeviceState) (data : List Nat) :
    (raw_hid_receive st data).last_challenge.length = st.last_challenge.length := by
  unfold raw_hid_receive
  split
  · simp [memcpy_length]
  · rfl

theorem raw_hid_receive_stores (st : DeviceState) (data : List Nat)
    (h : hasTag CMD_CHALLENGE data = true) (i : Nat) (hi : i < st.last_challenge.length)
    (hi2 : i < 32) :
    (raw_hid_receive st data).last_challenge.getD i 0 = data.getD (i + 1) 0 := by
  have h0 : data.getD 0 0 = CMD_CHALLENGE := by simpa [hasTag] using h
  unfold raw_hid_receive
  rw [if_pos h0]
  simp only [memcpy_getD, SECURITY_CHALLENGE_SIZE]
  have h2 : 0 ≤ i ∧ i < 0 + 32 ∧ i < st.last_challenge.length := by omega
  rw [if_pos h2, Nat.sub_zero, Nat.add_comm]

theorem raw_hid_receive_twice (st : DeviceState) (F1 F2 : List Nat)
    (h : hasTag CMD_CHALLENGE F2 = true) :
    raw_hid_receive (raw_hid_receive st F1) F2 = raw_hid_receive st F2 := by
  have h0 : F2.getD 0 0 = CMD_CHALLENGE := by simpa [hasTag] using h
  have key : ∀ l : List Nat, memcpy (memcpy l 0 F1 1 SECURITY_CHALLENGE_SIZE) 0 F2 1
      SECURITY_CHALLENGE_SIZE = memcpy l 0 F2 1 SECURITY_CHALLENGE_SIZE := by
    intro l
    apply ext_getD
    · simp [memcpy_length]
    · intro j _
      simp only [memcpy_getD, memcpy_length]
      split <;> rfl
  unfold raw_hid_receive
  by_cases h1 : F1.getD 0 0 = CMD_CHALLENGE
  · simp only [if_pos h0, if_pos h1, key]
  · simp only [if_pos h0, if_neg h1]

theorem wait_ms_sent (arrivals : List (List Nat)) (st : DeviceState) :
    (wait_ms arrivals st).sent = st.sent := by
  unfold wait_ms
  induction arrivals generalizing st with
  | nil => rfl
  | cons a as ih => rw [List.foldl_cons, ih, raw_hid_receive_sent]

theorem wait_ms_length (arrivals : List (List Nat)) (st : DeviceState) :
    (wait_ms arrivals st).last_challenge.length = st.last_challenge.length := by
  unfold wait_ms
  induction arrivals generalizing st with
  | nil => rfl
  | cons a as ih => rw [List.foldl_cons, ih, raw_hid_receive_length]

theorem wait_ms_flag (arrivals : List (List Nat)) (st : DeviceState) :
    (wait_ms arrivals st).challenge_received
      = (st.challenge_received || arrivals.any (hasTag CMD_CHALLENGE)) := by
  unfold wait_ms
  induction arrivals generalizing st with
  | nil => simp
  | cons a as ih =>
    rw [List.foldl_cons, ih, raw_hid_receive_flag, List.any_cons, Bool.or_assoc]

theorem send_auth_response_length (AUTH_KEY : List Nat) (arrivals : List (List Nat))
    (st : DeviceState) :
    (send_auth_response AUTH_KEY arrivals st).last_challenge.length
      = st.last_challenge.length := by
  unfold send_auth_response
  cases hf : st.challenge_received
  · simp only [Bool.not_false, if_true]
    split
    · simp [raw_hid_send, wait_ms_length]
    · simp [raw_hid_send, wait_ms_length]
  · simp [raw_hid_send, hf]

theorem deviceStep_length (AUTH_KEY : List Nat) (st : DeviceState) (e : DeviceEvent) :
    (deviceStep AUTH_KEY st e).last_challenge.length = st.last_challenge.length := by
  cases e with
  | receive data => exact raw_hid_receive_length st data
  | trigger arrivals => exact send_auth_response_length AUTH_KEY arrivals st

theorem deviceRun_length (AUTH_KEY : List Nat) (st : DeviceState) (es : List DeviceEvent) :
    (deviceRun AUTH_KEY st es).last_challenge.length = st.last_challenge.length := by
  unfold deviceRun
  induction es generalizing st with
  | nil => rfl
  | cons e es ih => rw [List.foldl_cons, ih, deviceStep_length]

theorem deviceRun_idle_length (AUTH_KEY : List Nat) (es : List DeviceEvent) :
    (deviceRun AUTH_KEY idle es).last_challenge.length = 32 := by
  rw [deviceRun_length]
  rfl

theorem deviceRun_nil (AUTH_KEY : List Nat) (st : DeviceState) :
    deviceRun AUTH_KEY st [] = st := rfl

theorem deviceRun_cons (AUTH_KEY : List Nat) (st : DeviceState) (e : DeviceEvent)
    (es : List DeviceEvent) :
    deviceRun AUTH_KEY st (e :: es) = deviceRun AUTH_KEY (deviceStep AUTH_KEY st e) es := rfl

theorem deviceRun_append (AUTH_KEY : List Nat) (st : DeviceState) (es fs : List DeviceEvent) :
    deviceRun AUTH_KEY st (es ++ fs) = deviceRun AUTH_KEY (deviceRun AUTH_KEY st es) fs := by
  simp [deviceRun, List.foldl_append]

/-- A trigger pressed while a challenge is held sends exactly the response
frame and clears the flag. -/
theorem send_auth_response_held (AUTH_KEY : List Nat) (arrivals : List (List Nat))
    (st : DeviceState) (h : st.challenge_received = true) :
    send_auth_response AUTH_KEY arrivals st =
      { last_challenge := st.last_challenge
        challenge_received := false
        sent := st.sent ++ [response_packet st.last_challenge AUTH_KEY] } := by
  simp [send_auth_response, h, raw_hid_send]

/-- A trigger pressed with no challenge held, during whose wait a challenge
arrives: AUTH_START, then the response to what was stored during the wait. -/
theorem send_auth_response_late (AUTH_KEY : List Nat) (arrivals : List (List Nat))
    (st : DeviceState) (h : st.challenge_received = false)
    (ha : arrivals.any (hasTag CMD_CHALLENGE) = true) :
    (send_auth_response AUTH_KEY arrivals st).sent =
        st.sent ++ [start_packet,
          response_packet (wait_ms arrivals (raw_hid_send st start_packet)).last_challenge
            AUTH_KEY]
      ∧ (send_auth_response AUTH_KEY arrivals st).challenge_received = false := by
  have hw : (wait_ms arrivals (raw_hid_send st start_packet)).challenge_received = true := by
    rw [wait_ms_flag, ha, Bool.or_true]
  unfold send_auth_response
  simp only [h, Bool.not_false, if_true, hw]
  simp [raw_hid_send, wait_ms_sent]

/-- A trigger pressed with no challenge held and none arriving during the
wait: only AUTH_START goes out. -/
theorem send_auth_response_unanswered (AUTH_KEY : List Nat) (arrivals : List (List Nat))
    (st : DeviceState) (h : st.challenge_received = false)
    (ha : arrivals.any (hasTag CMD_CHALLENGE) = false) :
    (send_auth_response AUTH_KEY arrivals st).sent = st.sent ++ [start_packet]
      ∧ (send_auth_response AUTH_KEY arrivals st).challenge_received = false := by
  have hw : (wait_ms arrivals (raw_hid_send st start_packet)).challenge_received = false := by
    rw [wait_ms_flag, ha, Bool.or_false]
    exact h
  unfold send_auth_response
  simp only [h, Bool.not_false, if_true, hw, Bool.false_eq_true, if_false]
  exact ⟨by rw [wait_ms_sent]; rfl, trivial⟩

theorem hasTag_response_packet (last_challenge AUTH_KEY : List Nat) :
    hasTag CMD_RESPONSE (response_packet last_challenge AUTH_KEY) = true := by
  unfold hasTag
  rw [response_packet_tag]
  exact beq_self_eq_true _

theorem hasTag_start_packet : hasTag CMD_RESPONSE start_packet = false := by decide

/-- One event never lets the responses sent, plus one for a held challenge,
grow by more than the challenges the event delivered. -/
theorem deviceStep_budget (AUTH_KEY : List Nat) (st : DeviceState) (e : DeviceEvent) :
    responsesSent (deviceStep AUTH_KEY st e)
        + (deviceStep AUTH_KEY st e).challenge_received.toNat
      ≤ responsesSent st + st.challenge_received.toNat + challengesOf e := by
  cases e with
  | receive data =>
    simp only [deviceStep, responsesSent, raw_hid_receive_sent, raw_hid_receive_flag,
      challengesOf]
    cases st.challenge_received <;> cases hasTag CMD_CHALLENGE data <;> simp
  | trigger arrivals =>
    simp only [deviceStep, challengesOf]
    cases hf : st.challenge_received
    · cases ha : arrivals.any (hasTag CMD_CHALLENGE)
      · obtain ⟨h1, h2⟩ := send_auth_response_unanswered AUTH_KEY arrivals st hf ha
        simp [responsesSent, h1, h2, List.countP_append, hasTag_start_packet]
      · obtain ⟨h1, h2⟩ := send_auth_response_late AUTH_KEY arrivals st hf ha
        simp [responsesSent, h1, h2, List.countP_append, List.countP_cons,
          hasTag_start_packet, hasTag_response_packet]
        exact List.any_eq_true.mp ha
    · rw [send_auth_response_held AUTH_KEY arrivals st hf]
      simp [responsesSent, List.countP_append, hasTag_response_packet]

theorem deviceRun_budget (AUTH_KEY : List Nat) (st : DeviceState) (es : List DeviceEvent) :
    responsesSent (deviceRun AUTH_KEY st es)
        + (deviceRun AUTH_KEY st es).challenge_received.toNat
      ≤ responsesSent st + st.challenge_received.toNat + challengesReceived es := by
  induction es generalizing st with
  | nil => simp [deviceRun, challengesReceived]
  | cons e es ih =>
    have h1 := ih (deviceStep AUTH_KEY st e)
    have h2 := deviceStep_budget AUTH_KEY st e
    simp only [deviceRun, List.foldl_cons, challengesReceived, List.map_cons, List.sum_cons]
      at h1 ⊢
    omega

/-- C5. Along every sequence of device events from the idle state:
receiving a frame sends nothing; a step puts a RESPONSE frame on the wire only
if it is a trigger and `challenge_received` was true when the trigger tested
it (true on entry, or set by a CHALLENGE that arrived during the wait that
follows AUTH_START), and then exactly one RESPONSE is sent and the flag is
false afterwards; hence the RESPONSE frames sent never outnumber the
CHALLENGE frames received. -/
theorem device_never_responds_unprompted (AUTH_KEY : List Nat) (es : List DeviceEvent)
    (e : DeviceEvent) :
    ∃ out : List (List Nat),
      (deviceRun AUTH_KEY idle (es ++ [e])).sent = (deviceRun AUTH_KEY idle es).sent ++ out
      ∧ (∀ data, e = DeviceEvent.receive data → out = [])
      ∧ ((∃ f ∈ out, hasTag CMD_RESPONSE f = true) →
          (∃ arrivals, e = DeviceEvent.trigger arrivals
            ∧ ((deviceRun AUTH_KEY idle es).challenge_received = true
                ∨ ∃ f ∈ arrivals, hasTag CMD_CHALLENGE f = true))
          ∧ out.countP (hasTag CMD_RESPONSE) = 1
          ∧ (deviceRun AUTH_KEY idle (es ++ [e])).challenge_received = false)
      ∧ responsesSent (deviceRun AUTH_KEY idle (es ++ [e])) ≤ challengesReceived (es ++ [e]) := by
  have hb : responsesSent (deviceRun AUTH_KEY idle (es ++ [e]))
      ≤ challengesReceived (es ++ [e]) := by
    have := deviceRun_budget AUTH_KEY idle (es ++ [e])
    simp only [responsesSent, idle, List.countP_nil, Bool.toNat_false] at this ⊢
    omega
  rw [deviceRun_append] at hb ⊢
  generalize deviceRun AUTH_KEY idle es = st at hb ⊢
  simp only [deviceRun, List.foldl_cons, List.foldl_nil] at hb ⊢
  cases e with
  | receive data =>
    refine ⟨[], ?_, fun _ _ => rfl, ?_, hb⟩
    · simp [deviceStep, raw_hid_receive_sent]
    · rintro ⟨f, hf, _⟩
      simp at hf
  | trigger arrivals =>
    simp only [deviceStep] at hb ⊢
    cases hf : st.challenge_received
    · cases ha : arrivals.any (hasTag CMD_CHALLENGE)
      · obtain ⟨h1, h2⟩ := send_auth_response_unanswered AUTH_KEY arrivals st hf ha
        refine ⟨[start_packet], h1, ?_, ?_, hb⟩
        · intro data h; cases h
        · rintro ⟨f, hf, ht⟩
          simp only [List.mem_singleton] at hf
          subst hf
          simp [hasTag_start_packet] at ht
      · obtain ⟨h1, h2⟩ := send_auth_response_late AUTH_KEY arrivals st hf ha
        refine ⟨_, h1, ?_, ?_, hb⟩
        · intro data h; cases h
        · intro _
          refine ⟨⟨arrivals, rfl, Or.inr ?_⟩, ?_, h2⟩
          · simpa [List.any_eq_true] using ha
          · simp [List.countP_cons, hasTag_start_packet, hasTag_response_packet]
    · rw [send_auth_response_held AUTH_KEY arrivals st hf]
      refine ⟨[response_packet st.last_challenge AUTH_KEY], rfl, ?_, ?_, ?_⟩
      · intro data h; cases h
      · intro _
        refine ⟨⟨arrivals, rfl, Or.inl rfl⟩, ?_, rfl⟩
        simp [List.countP_cons, hasTag_response_packet]
      · rw [send_auth_response_held AUTH_KEY arrivals st hf] at hb
        exact hb

/-- Trigger, challenge, trigger, trigger: the device sends AUTH_START, one
RESPONSE, AUTH_START; one response for one challenge. -/
theorem device_never_responds_unprompted_witness :
    (deviceRun sampleSecret idle
        ([DeviceEvent.trigger [], DeviceEvent.receive (challenge_packet sampleChallenge),
          DeviceEvent.trigger []] ++ [DeviceEvent.trigger []])).sent
      = [start_packet, sampleResponse, start_packet]
    ∧ responsesSent (deviceRun sampleSecret idle
        ([DeviceEvent.trigger [], DeviceEvent.receive (challenge_packet sampleChallenge),
          DeviceEvent.trigger []] ++ [DeviceEvent.trigger []]))
      ≤ challengesReceived
        ([DeviceEvent.trigger [], DeviceEvent.receive (challenge_packet sampleChallenge),
          DeviceEvent.trigger []] ++ [DeviceEvent.trigger []]) :=
  ⟨by decide,
    (device_never_responds_unprompted sampleSecret
      [DeviceEvent.trigger [], DeviceEvent.receive (challenge_packet sampleChallenge),
        DeviceEvent.trigger []] (DeviceEvent.trigger [])).elim fun _ h => h.2.2.2⟩

/-! ## Host building blocks -/

theorem hid_read_timeout_report_count (data : List Nat) :
    (hid_read_timeout (HidRead.report data) PACKET_SIZE).1 = ((min 64 data.length : Nat) : Int) := by
  simp [hid_read_timeout, PACKET_SIZE]

theorem hid_read_timeout_length (r : HidRead) :
    (hid_read_timeout r PACKET_SIZE).2.length = 64 := by
  cases r <;> simp [hid_read_timeout, PACKET_SIZE, memcpy_length]

/-- The receive buffer is the report followed by the zeros left by `memset`. -/
theorem hid_read_timeout_report_getD (data : List Nat) (j : Nat) (hj : j < 64) :
    (hid_read_timeout (HidRead.report data) PACKET_SIZE).2.getD j 0 = data.getD j 0 := by
  simp only [hid_read_timeout, PACKET_SIZE, memcpy_getD, List.length_replicate, List.length_take]
  by_cases h : j < data.length
  · have h2 : 0 ≤ j ∧ j < 0 + min 64 data.length ∧ j < 64 := by omega
    rw [if_pos h2]
    simp only [Nat.sub_zero, Nat.zero_add, List.getD_eq_getElem?_getD]
    rw [List.getElem?_take_of_lt hj]
  · have h2 : ¬ (0 ≤ j ∧ j < 0 + min 64 data.length ∧ j < 64) := by omega
    rw [if_neg h2]
    simp only [List.getD_eq_getElem?_getD]
    rw [List.getElem?_replicate, if_pos hj, List.getElem?_eq_none (by omega)]
    rfl

theorem verify_response_iff (challenge auth_key buffer : List Nat) (hb : 32 ≤ buffer.length) :
    verify_response challenge auth_key buffer = true ↔
      ∀ i, i < 31 → buffer.getD (i + 1) 0 = challenge.getD i 0 ^^^ auth_key.getD (i % 4) 0 := by
  unfold verify_response memcmp_eq
  rw [decide_eq_true_iff, List.take_of_length_le (by rw [expected_response_length]; decide)]
  have hl : (List.take (SECURITY_CHALLENGE_SIZE - 1) (List.drop 1 buffer)).length = 31 := by
    simp [SECURITY_CHALLENGE_SIZE]; omega
  have hg : ∀ i, i < 31 →
      (List.take (SECURITY_CHALLENGE_SIZE - 1) (List.drop 1 buffer)).getD i 0
        = buffer.getD (i + 1) 0 := by
    intro i hi
    simp only [List.getD_eq_getElem?_getD]
    rw [List.getElem?_take_of_lt (by simpa [SECURITY_CHALLENGE_SIZE] using hi),
      List.getElem?_drop, Nat.add_comm]
  constructor
  · intro h i hi
    rw [← hg i hi, ← h, expected_response_getD _ _ i hi]
  · intro h
    apply ext_getD
    · rw [expected_response_length, hl]
    · intro i hi
      rw [expected_response_length] at hi
      rw [hg i hi, h i hi, expected_response_getD _ _ i hi]

theorem open_matching_none (devs : List HidDeviceInfo) (k : Nat)
    (h : (open_matching devs k).1 = none) :
    (∀ e ∈ (open_matching devs k).2, ∃ i, e = Effect.hid_open_path i false)
      ∧ ¬ ∃ d ∈ devs, d.usage_page = RAW_USAGE_PAGE ∧ d.usage = RAW_USAGE_ID ∧ d.opens = true := by
  induction devs generalizing k with
  | nil => simp [open_matching]
  | cons d ds ih =>
    unfold open_matching at h ⊢
    by_cases hm : d.usage_page = RAW_USAGE_PAGE ∧ d.usage = RAW_USAGE_ID
    · rw [if_pos hm] at h ⊢
      cases ho : d.opens
      · simp only [ho, Bool.false_eq_true, if_false] at h ⊢
        obtain ⟨h1, h2⟩ := ih (k + 1) h
        refine ⟨?_, ?_⟩
        · intro e he
          rcases List.mem_cons.mp he with rfl | he
          · exact ⟨k, rfl⟩
          · exact h1 e he
        · rintro ⟨x, hx, hx2⟩
          rcases List.mem_cons.mp hx with rfl | hx
          · rw [ho] at hx2
            exact absurd hx2.2.2 (by decide)
          · exact h2 ⟨x, hx, hx2⟩
      · simp [ho] at h
    · rw [if_neg hm] at h ⊢
      obtain ⟨h1, h2⟩ := ih (k + 1) h
      refine ⟨h1, ?_⟩
      rintro ⟨x, hx, hx2⟩
      rcases List.mem_cons.mp hx with rfl | hx
      · exact hm ⟨hx2.1, hx2.2.1⟩
      · exact h2 ⟨x, hx, hx2⟩

theorem open_matching_some (devs : List HidDeviceInfo) (k device : Nat)
    (h : (open_matching devs k).1 = some device) :
    (∃ pre, (open_matching devs k).2 = pre ++ [Effect.hid_open_path device true]
        ∧ ∀ e ∈ pre, ∃ i, e = Effect.hid_open_path i false)
      ∧ ∃ d ∈ devs, d.usage_page = RAW_USAGE_PAGE ∧ d.usage = RAW_USAGE_ID ∧ d.opens = true := by
  induction devs generalizing k with
  | nil => simp [open_matching] at h
  | cons d ds ih =>
    unfold open_matching at h ⊢
    by_cases hm : d.usage_page = RAW_USAGE_PAGE ∧ d.usage = RAW_USAGE_ID
    · rw [if_pos hm] at h ⊢
      cases ho : d.opens
      · simp only [ho, Bool.false_eq_true, if_false] at h ⊢
        obtain ⟨⟨pre, h1, h2⟩, x, hx, hx2⟩ := ih (k + 1) h
        refine ⟨⟨Effect.hid_open_path k false :: pre, by rw [h1]; rfl, ?_⟩,
          x, List.mem_cons_of_mem _ hx, hx2⟩
        intro e he
        rcases List.mem_cons.mp he with rfl | he
        · exact ⟨k, rfl⟩
        · exact h2 e he
      · simp only [ho, if_true] at h ⊢
        have hk : k = device := by simpa using h
        subst hk
        exact ⟨⟨[], rfl, by simp⟩, d, List.mem_cons_self _ _, hm.1, hm.2, ho⟩
    · rw [if_neg hm] at h ⊢
      obtain ⟨h1, x, hx, hx2⟩ := ih (k + 1) h
      exact ⟨h1, x, List.mem_cons_of_mem _ hx, hx2⟩

/-! ## Host paths -/

/-- Every run of the host ends in one of four shapes of trace. -/
theorem pam_sm_authenticate_trace (env : HostEnv) :
    (pam_sm_authenticate env).2 = [Effect.hid_exit]
    ∨ (pam_sm_authenticate env).2 = [Effect.hid_init, Effect.hid_exit]
    ∨ ((open_matching env.devs 0).1 = none ∧
        (pam_sm_authenticate env).2 = [Effect.hid_init, Effect.hid_enumerate]
          ++ (open_matching env.devs 0).2 ++ [Effect.hid_free_enumeration, Effect.hid_exit])
    ∨ ∃ device calls, (open_matching env.devs 0).1 = some device
        ∧ (calls = [] ∨ ∃ random, env.urandom = some random
            ∧ (fread random SECURITY_CHALLENGE_SIZE).length = SECURITY_CHALLENGE_SIZE
            ∧ (calls = [Effect.hid_write device
                  (challenge_packet (fread random SECURITY_CHALLENGE_SIZE))]
              ∨ calls = [Effect.hid_write device
                  (challenge_packet (fread random SECURITY_CHALLENGE_SIZE)),
                  Effect.hid_read_timeout device]))
        ∧ (pam_sm_authenticate env).2 = [Effect.hid_init, Effect.hid_enumerate]
          ++ (open_matching env.devs 0).2 ++ [Effect.hid_free_enumeration] ++ calls
          ++ [Effect.hid_close device, Effect.hid_exit] := by
  unfold pam_sm_authenticate
  simp only []
  split
  · left; rfl
  · split
    · right; left; rfl
    · split
      · rename_i h
        right; right; left
        exact ⟨h, by simp [cleanup]⟩
      · rename_i device h
        right; right; right
        split
        · exact ⟨device, [], h, Or.inl rfl, by simp [cleanup]⟩
        · rename_i random hr
          split
          · exact ⟨device, [], h, Or.inl rfl, by simp [cleanup]⟩
          · rename_i hl
            split
            · exact ⟨device, _, h, Or.inr ⟨random, hr, not_not.mp hl, Or.inl rfl⟩,
                by simp [cleanup]⟩
            · refine ⟨device, _, h, Or.inr ⟨random, hr, not_not.mp hl, Or.inr rfl⟩, ?_⟩
              split
              · simp [cleanup]
              · split
                · simp [cleanup]
                · split <;> simp [cleanup]

theorem cleanup_fst (device : Option Nat) (result : Int) (trace : List Effect) :
    (cleanup device result trace).1 = result := by
  cases device <;> rfl

theorem auth_err_ne_success : PAM_AUTH_ERR ≠ PAM_SUCCESS := by decide

/-- The host reports success exactly when every stage of the attempt
passes. -/
theorem pam_sm_authenticate_result (env : HostEnv) :
    (pam_sm_authenticate env).1 = PAM_SUCCESS ↔
      ∃ auth_key device random,
        read_auth_key env.key_file = some auth_key
        ∧ env.hid_init_ret = 0
        ∧ (open_matching env.devs 0).1 = some device
        ∧ env.urandom = some random
        ∧ (fread random SECURITY_CHALLENGE_SIZE).length = SECURITY_CHALLENGE_SIZE
        ∧ env.hid_write_ret ≠ -1
        ∧ 0 < (hid_read_timeout env.hid_read PACKET_SIZE).1
        ∧ (hid_read_timeout env.hid_read PACKET_SIZE).2.getD 0 0 = CMD_RESPONSE
        ∧ verify_response (fread random SECURITY_CHALLENGE_SIZE) auth_key
            (hid_read_timeout env.hid_read PACKET_SIZE).2 = true := by
  constructor
  · intro h
    unfold pam_sm_authenticate at h
    simp only [] at h
    split at h
    · exact absurd ((cleanup_fst _ _ _).symm.trans h) auth_err_ne_success
    · rename_i auth_key hk
      split at h
      · exact absurd ((cleanup_fst _ _ _).symm.trans h) auth_err_ne_success
      · rename_i hi
        split at h
        · exact absurd ((cleanup_fst _ _ _).symm.trans h) auth_err_ne_success
        · rename_i device hd
          split at h
          · exact absurd ((cleanup_fst _ _ _).symm.trans h) auth_err_ne_success
          · rename_i random hr
            split at h
            · exact absurd ((cleanup_fst _ _ _).symm.trans h) auth_err_ne_success
            · rename_i hl
              split at h
              · exact absurd ((cleanup_fst _ _ _).symm.trans h) auth_err_ne_success
              · rename_i hw
                split at h
                · exact absurd ((cleanup_fst _ _ _).symm.trans h) auth_err_ne_success
                · rename_i hb
                  split at h
                  · exact absurd ((cleanup_fst _ _ _).symm.trans h) auth_err_ne_success
                  · rename_i ht
                    split at h
                    · rename_i hv
                      exact ⟨auth_key, device, random, hk, not_not.mp hi, hd, hr,
                        not_not.mp hl, hw, not_le.mp hb, not_not.mp ht, hv⟩
                    · exact absurd ((cleanup_fst _ _ _).symm.trans h) auth_err_ne_success
  · rintro ⟨auth_key, device, random, hk, hi, hd, hr, hl, hw, hb, ht, hv⟩
    unfold pam_sm_authenticate
    simp only [hk, hi, hd, hr, hl, hw, ht, hv, not_le.mpr hb, ne_eq, not_true_eq_false,
      if_false, if_true]
    rfl

theorem pam_sm_authenticate_binary (env : HostEnv) :
    (pam_sm_authenticate env).1 = PAM_SUCCESS ∨ (pam_sm_authenticate env).1 = PAM_AUTH_ERR := by
  unfold pam_sm_authenticate
  simp only []
  repeat' split
  all_goals first | exact Or.inl rfl | exact Or.inr rfl

/-! ## Host and device together -/

/-- The device stores exactly the challenge the host put into its frame. -/
theorem raw_hid_receive_challenge_packet (st : DeviceState) (Ch : List Nat)
    (hst : st.last_challenge.length = 32) (hCh : Ch.length = 32) :
    raw_hid_receive st (challenge_packet Ch) =
      { last_challenge := Ch, challenge_received := true, sent := st.sent } := by
  have h0 : (challenge_packet Ch).getD 0 0 = CMD_CHALLENGE := by
    rw [challenge_packet_getD, if_pos rfl]
  have hm : memcpy st.last_challenge 0 (challenge_packet Ch) 1 SECURITY_CHALLENGE_SIZE = Ch := by
    apply ext_getD
    · rw [memcpy_length, hst, hCh]
    · intro j hj
      rw [memcpy_length, hst] at hj
      have h2 : 0 ≤ j ∧ j < 0 + SECURITY_CHALLENGE_SIZE ∧ j < st.last_challenge.length := by
        simp [SECURITY_CHALLENGE_SIZE, hst]; omega
      have e1 : ¬ (1 + (j - 0) = 0) := by omega
      have e2 : 1 + (j - 0) ≤ 32 := by omega
      have e3 : 1 + (j - 0) - 1 = j := by omega
      rw [memcpy_getD, if_pos h2, challenge_packet_getD, if_neg e1, if_pos e2, e3]
  unfold raw_hid_receive
  rw [if_pos h0, hm]

theorem device_answers_challenge_packet (AUTH_KEY : List Nat) (es : List DeviceEvent)
    (arrivals : List (List Nat)) (Ch : List Nat) (hCh : Ch.length = 32) :
    (deviceRun AUTH_KEY idle
        (es ++ [DeviceEvent.receive (challenge_packet Ch), DeviceEvent.trigger arrivals])).sent
      = (deviceRun AUTH_KEY idle es).sent ++ [response_packet Ch AUTH_KEY] := by
  rw [deviceRun_append, deviceRun_cons, deviceRun_cons, deviceRun_nil]
  simp only [deviceStep]
  rw [raw_hid_receive_challenge_packet _ Ch (deviceRun_idle_length AUTH_KEY es) hCh,
    send_auth_response_held _ _ _ rfl]

/-- What the host finds in its receive buffer after the device's response
to `Ch` under key `K` arrived. -/
theorem buffer_of_response_packet (Ch K : List Nat) (hK : K.length = 4) (i : Nat)
    (hi : i < 31) :
    (hid_read_timeout (HidRead.report (response_packet Ch K)) PACKET_SIZE).2.getD (i + 1) 0
      = Ch.getD i 0 ^^^ K.getD (i % 4) 0 := by
  rw [hid_read_timeout_report_getD _ _ (by omega), response_packet_getD _ _ i hi, hK]

theorem verify_own_response (Ch S : List Nat) (hS : S.length = 4) :
    verify_response Ch S
      (hid_read_timeout (HidRead.report (response_packet Ch S)) PACKET_SIZE).2 = true := by
  rw [verify_response_iff _ _ _ (by rw [hid_read_timeout_length]; decide)]
  intro i hi
  exact buffer_of_response_packet Ch S hS i hi

theorem verify_other_response (Ch S K : List Nat) (hS : S.length = 4) (hK : K.length = 4)
    (hne : S ≠ K) :
    verify_response Ch S
      (hid_read_timeout (HidRead.report (response_packet Ch K)) PACKET_SIZE).2 = false := by
  rw [Bool.eq_false_iff]
  intro hv
  rw [verify_response_iff _ _ _ (by rw [hid_read_timeout_length]; decide)] at hv
  apply hne
  apply ext_getD _ _ (hS.trans hK.symm)
  intro j hj
  rw [hS] at hj
  have h := hv j (by omega)
  rw [buffer_of_response_packet Ch K hK j (by omega), Nat.mod_eq_of_lt hj] at h
  exact (Nat.xor_right_injective h).symm

theorem open_matching_finds (devs : List HidDeviceInfo)
    (h : ∃ d ∈ devs, d.usage_page = RAW_USAGE_PAGE ∧ d.usage = RAW_USAGE_ID ∧ d.opens = true) :
    ∃ device, (open_matching devs 0).1 = some device := by
  cases ho : (open_matching devs 0).1 with
  | none => exact absurd h (open_matching_none devs 0 ho).2
  | some device => exact ⟨device, rfl⟩

/-- Once the key is loaded, a device is open, the challenge is drawn and the
write does not fail, the host has put its CHALLENGE frame on the wire. -/
theorem pam_sm_authenticate_writes (env : HostEnv) (auth_key random : List Nat) (device : Nat)
    (hk : read_auth_key env.key_file = some auth_key) (hi : env.hid_init_ret = 0)
    (hd : (open_matching env.devs 0).1 = some device) (hr : env.urandom = some random)
    (hl : (fread random SECURITY_CHALLENGE_SIZE).length = SECURITY_CHALLENGE_SIZE) :
    Effect.hid_write device (challenge_packet (fread random SECURITY_CHALLENGE_SIZE))
      ∈ (pam_sm_authenticate env).2 := by
  unfold pam_sm_authenticate
  simp only [hk, hi, hd, hr, hl, ne_eq, not_true_eq_false, if_false]
  repeat' split
  all_goals simp [cleanup]

/-- One device event appends only AUTH_START and RESPONSE frames. -/
theorem deviceStep_frames (AUTH_KEY : List Nat) (st : DeviceState) (e : DeviceEvent)
    (hst : st.last_challenge.length = 32) :
    ∃ out, (deviceStep AUTH_KEY st e).sent = st.sent ++ out
      ∧ ∀ f ∈ out, f = start_packet
          ∨ ∃ lc : List Nat, lc.length = 32 ∧ f = response_packet lc AUTH_KEY := by
  cases e with
  | receive data =>
    exact ⟨[], by simp [deviceStep, raw_hid_receive_sent], by simp⟩
  | trigger arrivals =>
    simp only [deviceStep]
    cases hf : st.challenge_received
    · cases ha : arrivals.any (hasTag CMD_CHALLENGE)
      · refine ⟨[start_packet], (send_auth_response_unanswered AUTH_KEY arrivals st hf ha).1, ?_⟩
        intro f hmem
        exact Or.inl (List.mem_singleton.mp hmem)
      · refine ⟨_, (send_auth_response_late AUTH_KEY arrivals st hf ha).1, ?_⟩
        intro f hmem
        simp only [List.mem_cons, List.mem_singleton, List.not_mem_nil, or_false] at hmem
        rcases hmem with h | h
        · exact Or.inl h
        · exact Or.inr ⟨_, by rw [wait_ms_length]; exact hst, h⟩
    · rw [send_auth_response_held AUTH_KEY arrivals st hf]
      refine ⟨[response_packet st.last_challenge AUTH_KEY], rfl, ?_⟩
      intro f hmem
      exact Or.inr ⟨_, hst, List.mem_singleton.mp hmem⟩

/-- Every frame the device ever sends is an AUTH_START or a RESPONSE frame. -/
theorem deviceRun_frames (AUTH_KEY : List Nat) (es : List DeviceEvent) :
    ∀ f ∈ (deviceRun AUTH_KEY idle es).sent, f = start_packet
      ∨ ∃ lc : List Nat, lc.length = 32 ∧ f = response_packet lc AUTH_KEY := by
  induction es using List.reverseRecOn with
  | nil =>
    intro f hmem
    simp [deviceRun, idle] at hmem
  | append_singleton es e ih =>
    intro f hmem
    rw [deviceRun_append, deviceRun_cons, deviceRun_nil] at hmem
    obtain ⟨out, h1, h2⟩ := deviceStep_frames AUTH_KEY (deviceRun AUTH_KEY idle es) e
      (deviceRun_idle_length AUTH_KEY es)
    rw [h1, List.mem_append] at hmem
    rcases hmem with hmem | hmem
    · exact ih f hmem
    · exact h2 f hmem

/-- Every `hid_write` of the host carries the CHALLENGE frame built from the
32 bytes drawn from the random source. -/
theorem pam_sm_authenticate_write_packet (env : HostEnv) (device : Nat) (data : List Nat)
    (h : Effect.hid_write device data ∈ (pam_sm_authenticate env).2) :
    ∃ random, env.urandom = some random ∧ 32 ≤ random.length
      ∧ data = challenge_packet (fread random SECURITY_CHALLENGE_SIZE) := by
  rcases pam_sm_authenticate_trace env with ht | ht | ⟨hn, ht⟩ | ⟨dev, calls, hd, hc, ht⟩
  · rw [ht] at h
    simp at h
  · rw [ht] at h
    simp at h
  · rw [ht] at h
    simp only [List.mem_append, List.mem_cons, List.mem_singleton, List.not_mem_nil,
      or_false] at h
    rcases h with ((h | h) | h) | h | h
    · cases h
    · cases h
    · obtain ⟨i, hi⟩ := (open_matching_none _ _ hn).1 _ h
      cases hi
    · cases h
    · cases h
  · obtain ⟨⟨pre, hp, hpre⟩, _⟩ := open_matching_some _ _ _ hd
    rw [ht, hp] at h
    simp only [List.mem_append, List.mem_cons, List.mem_singleton, List.not_mem_nil,
      or_false] at h
    have key : ∀ random, env.urandom = some random →
        (fread random SECURITY_CHALLENGE_SIZE).length = SECURITY_CHALLENGE_SIZE →
        Effect.hid_write device data = Effect.hid_write dev
          (challenge_packet (fread random SECURITY_CHALLENGE_SIZE)) →
        ∃ random, env.urandom = some random ∧ 32 ≤ random.length
          ∧ data = challenge_packet (fread random SECURITY_CHALLENGE_SIZE) := by
      intro random hr hl he
      refine ⟨random, hr, ?_, ?_⟩
      · simp only [fread, SECURITY_CHALLENGE_SIZE, List.length_take] at hl
        omega
      · injection he
    rcases h with ((((h | h) | h | h) | h) | h) | h | h
    · cases h
    · cases h
    · obtain ⟨i, hi⟩ := hpre _ h
      cases hi
    · cases h
    · cases h
    · rcases hc with rfl | ⟨random, hr, hl, rfl | rfl⟩
      · simp at h
      · exact key random hr hl (List.mem_singleton.mp h)
      · simp only [List.mem_cons, List.mem_singleton, List.not_mem_nil, or_false] at h
        rcases h with h | h
        · exact key random hr hl h
        · cases h
    · cases h
    · cases h

/-! ## The claims -/

/-- C2. For a 32-byte challenge and a 4-byte secret, the host's expected
response has exactly 31 bytes and its byte `i` is
`challenge[i] XOR secret[i mod 4]`; the RESPONSE frame the device sends when
triggered with a challenge held carries in bytes 1..31 the same function of
the held challenge and the device key. -/
theorem response_transform (Ch S : List Nat) (_hCh : Ch.length = 32) (hS : S.length = 4) :
    (expected_response Ch S).length = 31
    ∧ (∀ i, i < 31 → (expected_response Ch S).getD i 0 = Ch.getD i 0 ^^^ S.getD (i % 4) 0)
    ∧ ∀ (st : DeviceState) (arrivals : List (List Nat)),
        st.last_challenge = Ch → st.challenge_received = true →
        ∃ R, (send_auth_response S arrivals st).sent = st.sent ++ [R]
          ∧ R.getD 0 0 = CMD_RESPONSE
          ∧ (∀ i, i < 31 → R.getD (i + 1) 0 = Ch.getD i 0 ^^^ S.getD (i % 4) 0)
          ∧ R.drop 1 = expected_response Ch S := by
  refine ⟨expected_response_length Ch S, expected_response_getD Ch S, ?_⟩
  intro st arrivals hst hf
  have hb : ∀ i, i < 31 →
      (response_packet Ch S).getD (i + 1) 0 = Ch.getD i 0 ^^^ S.getD (i % 4) 0 := by
    intro i hi
    rw [response_packet_getD _ _ i hi, hS]
  refine ⟨response_packet Ch S, ?_, response_packet_tag Ch S, hb, ?_⟩
  · rw [send_auth_response_held S arrivals st hf, hst]
  · apply ext_getD
    · rw [List.length_drop, response_packet_length, expected_response_length]
    · intro j hj
      rw [List.length_drop, response_packet_length] at hj
      rw [expected_response_getD _ _ j (by omega), ← hb j (by omega)]
      simp only [List.getD_eq_getElem?_getD, List.getElem?_drop, Nat.add_comm]

/-- The end-to-end scenario of C2: secret `[1, 2, 3, 4]` and 32 bytes `0xAA`
give `0xAA XOR secret[i mod 4]` at every byte, on the host and in the frame
the device sends. -/
theorem response_transform_witness :
    sampleChallenge.length = 32 ∧ sampleSecret.length = 4
    ∧ expected_response sampleChallenge sampleSecret = sampleResponse.drop 1
    ∧ (∀ i, i < 31 → (expected_response sampleChallenge sampleSecret).getD i 0
        = 0xAA ^^^ sampleSecret.getD (i % 4) 0)
    ∧ (send_auth_response sampleSecret []
        (raw_hid_receive idle (challenge_packet sampleChallenge))).sent = [sampleResponse] :=
  ⟨by decide, by decide, by decide,
    fun i hi => by
      have h := (response_transform sampleChallenge sampleSecret (by decide) (by decide)).2.1 i hi
      have hc : sampleChallenge.getD i 0 = 0xAA := by
        simp only [sampleChallenge, List.getD_eq_getElem?_getD]
        rw [List.getElem?_replicate, if_pos (by omega)]
        rfl
      rw [h, hc],
    by decide⟩

/-- C1. Round trip: the host builds its CHALLENGE frame from the 32-byte
challenge `Ch`; a device holding the same 4-byte secret `S` receives that
frame (after any earlier events) and is triggered; it sends exactly one
frame `R`; when that frame is what the host reads back, the host's check
against its own expected value succeeds and `pam_sm_authenticate` returns
`PAM_SUCCESS`. -/
theorem round_trip (env : HostEnv) (Ch S random : List Nat) (es : List DeviceEvent)
    (arrivals : List (List Nat))
    (hCh : Ch.length = 32) (hS : S.length = 4)
    (hkey : read_auth_key env.key_file = some S)
    (hinit : env.hid_init_ret = 0)
    (hdev : ∃ d ∈ env.devs,
      d.usage_page = RAW_USAGE_PAGE ∧ d.usage = RAW_USAGE_ID ∧ d.opens = true)
    (hrand : env.urandom = some random)
    (hfread : fread random SECURITY_CHALLENGE_SIZE = Ch)
    (hwrite : env.hid_write_ret ≠ -1) :
    ∃ R,
      (∃ device, Effect.hid_write device (challenge_packet Ch) ∈ (pam_sm_authenticate env).2)
      ∧ (deviceRun S idle (es ++ [DeviceEvent.receive (challenge_packet Ch),
            DeviceEvent.trigger arrivals])).sent = (deviceRun S idle es).sent ++ [R]
      ∧ verify_response Ch S (hid_read_timeout (HidRead.report R) PACKET_SIZE).2 = true
      ∧ (env.hid_read = HidRead.report R → (pam_sm_authenticate env).1 = PAM_SUCCESS) := by
  obtain ⟨device, hd⟩ := open_matching_finds env.devs hdev
  have hl : (fread random SECURITY_CHALLENGE_SIZE).length = SECURITY_CHALLENGE_SIZE := by
    rw [hfread, hCh]; rfl
  refine ⟨response_packet Ch S, ⟨device, ?_⟩,
    device_answers_challenge_packet S es arrivals Ch hCh, verify_own_response Ch S hS, ?_⟩
  · rw [← hfread]
    exact pam_sm_authenticate_writes env S random device hkey hinit hd hrand hl
  · intro hread
    rw [pam_sm_authenticate_result]
    refine ⟨S, device, random, hkey, hinit, hd, hrand, hl, hwrite, ?_, ?_, ?_⟩
    · rw [hread, hid_read_timeout_report_count, response_packet_length]
      decide
    · rw [hread, hid_read_timeout_report_getD _ _ (by decide), response_packet_tag]
    · rw [hread, hfread]
      exact verify_own_response Ch S hS

/-- The end-to-end scenario of C1: with secret `[1, 2, 3, 4]` on both sides
and the challenge 32 x `0xAA`, the host accepts the device's reply. -/
theorem round_trip_witness :
    sampleChallenge.length = 32 ∧ sampleSecret.length = 4
    ∧ (deviceRun sampleSecret idle [DeviceEvent.receive (challenge_packet sampleChallenge),
          DeviceEvent.trigger []]).sent = [sampleResponse]
    ∧ (pam_sm_authenticate sampleEnv).1 = PAM_SUCCESS := by
  refine ⟨by decide, by decide, by decide, ?_⟩
  obtain ⟨R, _, hR, _, h⟩ := round_trip sampleEnv sampleChallenge sampleSecret
    (List.replicate 48 0xAA) [] [] (by decide) (by decide) (by decide) (by decide)
    ⟨⟨RAW_USAGE_PAGE, RAW_USAGE_ID, true⟩, by decide, rfl, rfl, rfl⟩ rfl (by decide) (by decide)
  have hs : (deviceRun sampleSecret idle ([] ++ [DeviceEvent.receive
      (challenge_packet sampleChallenge), DeviceEvent.trigger []])).sent = [sampleResponse] := by
    decide
  rw [hs] at hR
  have hR2 : sampleResponse = R := by simpa [deviceRun, idle] using hR
  exact h (by rw [← hR2]; rfl)

/-- C4. Wrong secret: when the device's 4-byte key `K` differs from the
host's 4-byte secret `S`, the single frame the device sends in answer to the
host's CHALLENGE frame for `Ch` fails the host's comparison, and a host run
that reads this frame returns `PAM_AUTH_ERR`. -/
theorem wrong_secret_rejected (Ch S K : List Nat) (es : List DeviceEvent)
    (arrivals : List (List Nat))
    (hCh : Ch.length = 32) (hS : S.length = 4) (hK : K.length = 4) (hne : S ≠ K) :
    ∃ R,
      (deviceRun K idle (es ++ [DeviceEvent.receive (challenge_packet Ch),
          DeviceEvent.trigger arrivals])).sent = (deviceRun K idle es).sent ++ [R]
      ∧ verify_response Ch S (hid_read_timeout (HidRead.report R) PACKET_SIZE).2 = false
      ∧ ∀ (env : HostEnv) (random : List Nat),
          read_auth_key env.key_file = some S → env.urandom = some random →
          fread random SECURITY_CHALLENGE_SIZE = Ch → env.hid_read = HidRead.report R →
          (pam_sm_authenticate env).1 = PAM_AUTH_ERR := by
  have hv := verify_other_response Ch S K hS hK hne
  refine ⟨response_packet Ch K, device_answers_challenge_packet K es arrivals Ch hCh, hv, ?_⟩
  intro env random hkey hrand hfread hread
  rcases pam_sm_authenticate_binary env with h | h
  · rw [pam_sm_authenticate_result] at h
    obtain ⟨auth_key, device, random2, hk, _, _, hr, _, _, _, _, hver⟩ := h
    rw [hkey] at hk
    rw [hrand] at hr
    cases hk
    cases hr
    rw [hread, hfread, hv] at hver
    exact absurd hver (by decide)
  · exact h

/-- A device keyed `[1, 2, 3, 5]` against a host keyed `[1, 2, 3, 4]`. -/
theorem wrong_secret_rejected_witness :
    sampleChallenge.length = 32 ∧ sampleSecret.length = 4 ∧ [1, 2, 3, 5].length = 4
    ∧ sampleSecret ≠ [1, 2, 3, 5]
    ∧ ∃ R, (deviceRun [1, 2, 3, 5] idle ([] ++ [DeviceEvent.receive
          (challenge_packet sampleChallenge), DeviceEvent.trigger []])).sent
        = (deviceRun [1, 2, 3, 5] idle []).sent ++ [R]
      ∧ verify_response sampleChallenge sampleSecret
          (hid_read_timeout (HidRead.report R) PACKET_SIZE).2 = false :=
  ⟨by decide, by decide, by decide, by decide,
    (wrong_secret_rejected sampleChallenge sampleSecret [1, 2, 3, 5] [] []
      (by decide) (by decide) (by decide) (by decide)).imp fun _ h => ⟨h.1, h.2.1⟩⟩

/-- C3. `pam_sm_authenticate` returns `PAM_SUCCESS` if and only if the key
load succeeds, the HID library starts and a device with the raw usage page
and usage is opened, 32 challenge bytes are obtained, the send does not fail
(`hid_write` does not return -1), the receive returns a positive byte count,
byte 0 of the received frame is `0x03`, and bytes 1..31 of the received frame
equal the expected response; in every other case it returns
`PAM_AUTH_ERR`. -/
theorem pam_sm_authenticate_success_iff (env : HostEnv) :
    ((pam_sm_authenticate env).1 = PAM_SUCCESS ↔
      ∃ auth_key random data,
        read_auth_key env.key_file = some auth_key
        ∧ (env.hid_init_ret = 0 ∧ ∃ d ∈ env.devs,
            d.usage_page = RAW_USAGE_PAGE ∧ d.usage = RAW_USAGE_ID ∧ d.opens = true)
        ∧ (env.urandom = some random ∧ 32 ≤ random.length)
        ∧ env.hid_write_ret ≠ -1
        ∧ (env.hid_read = HidRead.report data ∧ 0 < data.length)
        ∧ data.getD 0 0 = 0x03
        ∧ ∀ i, i < 31 → data.getD (i + 1) 0
            = (expected_response (fread random SECURITY_CHALLENGE_SIZE) auth_key).getD i 0)
    ∧ ((pam_sm_authenticate env).1 ≠ PAM_SUCCESS
        → (pam_sm_authenticate env).1 = PAM_AUTH_ERR) := by
  refine ⟨?_, fun h => (pam_sm_authenticate_binary env).resolve_left h⟩
  rw [pam_sm_authenticate_result]
  constructor
  · rintro ⟨auth_key, device, random, hk, hi, hd, hr, hl, hw, hb, ht, hv⟩
    have hlen : 32 ≤ random.length := by
      simp only [fread, SECURITY_CHALLENGE_SIZE, List.length_take] at hl
      omega
    cases hrd : env.hid_read with
    | error =>
      rw [hrd] at hb
      exact absurd hb (by decide)
    | timeout =>
      rw [hrd] at hb
      exact absurd hb (by decide)
    | report data =>
      rw [hrd] at hb ht hv
      rw [hid_read_timeout_report_count] at hb
      rw [hid_read_timeout_report_getD _ _ (by decide)] at ht
      rw [verify_response_iff _ _ _ (by rw [hid_read_timeout_length]; decide)] at hv
      refine ⟨auth_key, random, data, hk, ⟨hi, (open_matching_some _ _ _ hd).2⟩, ⟨hr, hlen⟩,
        hw, ⟨rfl, by omega⟩, ht, ?_⟩
      intro i hi
      rw [expected_response_getD _ _ i hi, ← hv i hi,
        hid_read_timeout_report_getD _ _ (by omega)]
  · rintro ⟨auth_key, random, data, hk, ⟨hi, hdev⟩, ⟨hr, hlen⟩, hw, ⟨hrd, hpos⟩, ht, hv⟩
    obtain ⟨device, hd⟩ := open_matching_finds env.devs hdev
    refine ⟨auth_key, device, random, hk, hi, hd, hr, ?_, hw, ?_, ?_, ?_⟩
    · simp only [fread, SECURITY_CHALLENGE_SIZE, List.length_take]
      omega
    · rw [hrd, hid_read_timeout_report_count]
      omega
    · rw [hrd, hid_read_timeout_report_getD _ _ (by decide)]
      exact ht
    · rw [hrd, verify_response_iff _ _ _ (by rw [hid_read_timeout_length]; decide)]
      intro i hi
      rw [hid_read_timeout_report_getD _ _ (by omega), hv i hi,
        expected_response_getD _ _ i hi]

/-- The sample run succeeds; flipping one bit of the reply (byte 5,
`0xAB` to `0xAA`), a wrong tag, a timeout, a failed send, no entropy, no
device or a group-readable key file each give `PAM_AUTH_ERR`. -/
theorem pam_sm_authenticate_success_iff_witness :
    (pam_sm_authenticate sampleEnv).1 = PAM_SUCCESS
    ∧ (pam_sm_authenticate { sampleEnv with
        hid_read := HidRead.report (sampleResponse.set 5 0xAA) }).1 = PAM_AUTH_ERR
    ∧ (pam_sm_authenticate { sampleEnv with
        hid_read := HidRead.report (sampleResponse.set 0 0x02) }).1 = PAM_AUTH_ERR
    ∧ (pam_sm_authenticate { sampleEnv with hid_read := HidRead.timeout }).1 = PAM_AUTH_ERR
    ∧ (pam_sm_authenticate { sampleEnv with hid_write_ret := -1 }).1 = PAM_AUTH_ERR
    ∧ (pam_sm_authenticate { sampleEnv with urandom := none }).1 = PAM_AUTH_ERR
    ∧ (pam_sm_authenticate { sampleEnv with devs := [] }).1 = PAM_AUTH_ERR
    ∧ (pam_sm_authenticate { sampleEnv with
        key_file := some { sampleKeyFile with st_mode := 0o100440 } }).1 = PAM_AUTH_ERR :=
  ⟨(pam_sm_authenticate_success_iff sampleEnv).1.mpr
      ⟨sampleSecret, List.replicate 48 0xAA, sampleResponse, by decide,
        ⟨rfl, ⟨RAW_USAGE_PAGE, RAW_USAGE_ID, true⟩, by decide, rfl, rfl, rfl⟩,
        ⟨rfl, by decide⟩, by decide, ⟨rfl, by decide⟩, by decide, by decide⟩,
    by decide, by decide, by decide, by decide, by decide, by decide, by decide⟩

/-- C7. No handle leak.  In the trace of HID calls of any run of
`pam_sm_authenticate`, either no handle is opened and no call takes a handle,
or the trace is `pre`, the successful `hid_open_path`, `mid`, one `hid_close`
of that handle, `post`, where nothing in `pre` or `post` opens or takes a
handle, and `mid` opens nothing, closes nothing and uses only that handle:
the handle is closed exactly once, before the return, and never touched
after the close. -/
theorem no_handle_leak (env : HostEnv) :
    (∀ e ∈ (pam_sm_authenticate env).2, e.opensHandle = false ∧ e.onHandle = none)
    ∨ ∃ device pre mid post,
        (pam_sm_authenticate env).2 = pre ++ [Effect.hid_open_path device true] ++ mid
          ++ [Effect.hid_close device] ++ post
        ∧ (∀ e ∈ pre, e.opensHandle = false ∧ e.onHandle = none)
        ∧ (∀ e ∈ mid, e.opensHandle = false ∧ (∀ d, e ≠ Effect.hid_close d)
            ∧ (e.onHandle = none ∨ e.onHandle = some device))
        ∧ (∀ e ∈ post, e.opensHandle = false ∧ e.onHandle = none) := by
  rcases pam_sm_authenticate_trace env with h | h | ⟨hn, h⟩ | ⟨device, calls, hd, hc, h⟩
  · left
    rw [h]
    intro e he
    simp only [List.mem_singleton] at he
    subst he
    exact ⟨rfl, rfl⟩
  · left
    rw [h]
    intro e he
    simp only [List.mem_cons, List.mem_singleton, List.not_mem_nil, or_false] at he
    rcases he with rfl | rfl <;> exact ⟨rfl, rfl⟩
  · left
    rw [h]
    intro e he
    simp only [List.mem_append, List.mem_cons, List.mem_singleton, List.not_mem_nil,
      or_false] at he
    rcases he with ((rfl | rfl) | he) | rfl | rfl
    · exact ⟨rfl, rfl⟩
    · exact ⟨rfl, rfl⟩
    · obtain ⟨i, rfl⟩ := (open_matching_none _ _ hn).1 e he
      exact ⟨rfl, rfl⟩
    · exact ⟨rfl, rfl⟩
    · exact ⟨rfl, rfl⟩
  · right
    obtain ⟨⟨pre, hp, hpre⟩, _⟩ := open_matching_some _ _ _ hd
    refine ⟨device, [Effect.hid_init, Effect.hid_enumerate] ++ pre,
      [Effect.hid_free_enumeration] ++ calls, [Effect.hid_exit], ?_, ?_, ?_, ?_⟩
    · rw [h, hp]
      simp
    · intro e he
      simp only [List.mem_append, List.mem_cons, List.mem_singleton, List.not_mem_nil,
        or_false] at he
      rcases he with (rfl | rfl) | he
      · exact ⟨rfl, rfl⟩
      · exact ⟨rfl, rfl⟩
      · obtain ⟨i, rfl⟩ := hpre e he
        exact ⟨rfl, rfl⟩
    · intro e he
      simp only [List.mem_append, List.mem_singleton] at he
      rcases he with rfl | he
      · exact ⟨rfl, fun d hx => (by cases hx), Or.inl rfl⟩
      · rcases hc with rfl | ⟨random, _, _, rfl | rfl⟩
        · simp at he
        · simp only [List.mem_singleton] at he
          subst he
          exact ⟨rfl, fun d hx => (by cases hx), Or.inr rfl⟩
        · simp only [List.mem_cons, List.mem_singleton, List.not_mem_nil, or_false] at he
          rcases he with rfl | rfl
          · exact ⟨rfl, fun d hx => (by cases hx), Or.inr rfl⟩
          · exact ⟨rfl, fun d hx => (by cases hx), Or.inr rfl⟩
    · intro e he
      simp only [List.mem_singleton] at he
      subst he
      exact ⟨rfl, rfl⟩

/-- The sample run and a run cut short by a timeout: the handle of device 1
is opened, used, closed once, and `hid_exit` follows. -/
theorem no_handle_leak_witness :
    (pam_sm_authenticate sampleEnv).2 =
        [Effect.hid_init, Effect.hid_enumerate, Effect.hid_open_path 1 true,
          Effect.hid_free_enumeration,
          Effect.hid_write 1 (challenge_packet sampleChallenge), Effect.hid_read_timeout 1,
          Effect.hid_close 1, Effect.hid_exit]
    ∧ ((∀ e ∈ (pam_sm_authenticate { sampleEnv with hid_read := HidRead.timeout }).2,
          e.opensHandle = false ∧ e.onHandle = none)
      ∨ ∃ device pre mid post,
        (pam_sm_authenticate { sampleEnv with hid_read := HidRead.timeout }).2
          = pre ++ [Effect.hid_open_path device true] ++ mid
            ++ [Effect.hid_close device] ++ post
        ∧ (∀ e ∈ pre, e.opensHandle = false ∧ e.onHandle = none)
        ∧ (∀ e ∈ mid, e.opensHandle = false ∧ (∀ d, e ≠ Effect.hid_close d)
            ∧ (e.onHandle = none ∨ e.onHandle = some device))
        ∧ (∀ e ∈ post, e.opensHandle = false ∧ e.onHandle = none)) :=
  ⟨by decide, no_handle_leak { sampleEnv with hid_read := HidRead.timeout }⟩

/-- C8. Permission boundary: when the key file has any group or other
permission bit set (`st_mode & 077` non-zero), `read_auth_key` fails whatever
the file holds, and `pam_sm_authenticate` returns `PAM_AUTH_ERR` having made
no HID call but the final `hid_exit`: no device is opened. -/
theorem unsafe_permissions_rejected (env : HostEnv) (st : KeyFile)
    (hk : env.key_file = some st) (hm : st.st_mode &&& 0o77 ≠ 0) :
    read_auth_key (some st) = none
    ∧ pam_sm_authenticate env = (PAM_AUTH_ERR, [Effect.hid_exit])
    ∧ ∀ index handle, Effect.hid_open_path index handle ∉ (pam_sm_authenticate env).2 := by
  have h1 : read_auth_key (some st) = none := by
    simp only [read_auth_key, if_pos hm]
  have h2 : pam_sm_authenticate env = (PAM_AUTH_ERR, [Effect.hid_exit]) := by
    unfold pam_sm_authenticate
    simp only [hk, h1]
    rfl
  refine ⟨h1, h2, ?_⟩
  intro index handle hmem
  rw [h2] at hmem
  simp at hmem

/-- A key file with the right four bytes and mode `0440` (group-readable) is
refused. -/
theorem unsafe_permissions_rejected_witness :
    (0o100440 : Nat) &&& 0o77 ≠ 0
    ∧ read_auth_key (some { sampleKeyFile with st_mode := 0o100440 }) = none
    ∧ pam_sm_authenticate { sampleEnv with
        key_file := some { sampleKeyFile with st_mode := 0o100440 } }
      = (PAM_AUTH_ERR, [Effect.hid_exit]) :=
  ⟨by decide,
    (unsafe_permissions_rejected
      { sampleEnv with key_file := some { sampleKeyFile with st_mode := 0o100440 } }
      { sampleKeyFile with st_mode := 0o100440 } rfl (by decide)).1,
    (unsafe_permissions_rejected
      { sampleEnv with key_file := some { sampleKeyFile with st_mode := 0o100440 } }
      { sampleKeyFile with st_mode := 0o100440 } rfl (by decide)).2.1⟩

/-- C6. Overwrite semantics: after a frame `F1` and then a CHALLENGE frame
`F2` with no trigger in between, the device is in the very state it would be
in had `F1` never arrived; the next trigger sends one RESPONSE frame whose
payload byte `i` is `F2[i + 1] XOR AUTH_KEY[i mod sizeof AUTH_KEY]`, and
every later run of events behaves as if `F1` had never been received. -/
theorem second_challenge_overwrites (AUTH_KEY : List Nat) (es : List DeviceEvent)
    (F1 F2 : List Nat) (arrivals : List (List Nat))
    (_h1 : hasTag CMD_CHALLENGE F1 = true) (h2 : hasTag CMD_CHALLENGE F2 = true) :
    deviceRun AUTH_KEY idle (es ++ [DeviceEvent.receive F1, DeviceEvent.receive F2])
      = deviceRun AUTH_KEY idle (es ++ [DeviceEvent.receive F2])
    ∧ (∃ R, (deviceRun AUTH_KEY idle (es ++ [DeviceEvent.receive F1, DeviceEvent.receive F2,
            DeviceEvent.trigger arrivals])).sent = (deviceRun AUTH_KEY idle es).sent ++ [R]
        ∧ R.length = 32 ∧ R.getD 0 0 = CMD_RESPONSE
        ∧ ∀ i, i < 31 →
            R.getD (i + 1) 0 = F2.getD (i + 1) 0 ^^^ AUTH_KEY.getD (i % AUTH_KEY.length) 0)
    ∧ ∀ later, deviceRun AUTH_KEY idle
          (es ++ [DeviceEvent.receive F1, DeviceEvent.receive F2] ++ later)
        = deviceRun AUTH_KEY idle (es ++ [DeviceEvent.receive F2] ++ later) := by
  have hst := deviceRun_idle_length AUTH_KEY es
  have e1 : deviceRun AUTH_KEY idle (es ++ [DeviceEvent.receive F1, DeviceEvent.receive F2])
      = deviceRun AUTH_KEY idle (es ++ [DeviceEvent.receive F2]) := by
    rw [deviceRun_append, deviceRun_append, deviceRun_cons, deviceRun_cons, deviceRun_cons,
      deviceRun_nil]
    exact raw_hid_receive_twice _ F1 F2 h2
  refine ⟨e1, ?_, ?_⟩
  · have e2 : es ++ [DeviceEvent.receive F1, DeviceEvent.receive F2,
        DeviceEvent.trigger arrivals]
        = (es ++ [DeviceEvent.receive F1, DeviceEvent.receive F2])
          ++ [DeviceEvent.trigger arrivals] := by simp
    have hf : (raw_hid_receive (deviceRun AUTH_KEY idle es) F2).challenge_received = true := by
      rw [raw_hid_receive_flag, h2, Bool.or_true]
    rw [e2, deviceRun_append, e1, deviceRun_append, deviceRun_cons, deviceRun_cons,
      deviceRun_nil, deviceRun_nil]
    simp only [deviceStep]
    rw [send_auth_response_held _ _ _ hf]
    refine ⟨_, by rw [raw_hid_receive_sent], response_packet_length _ _,
      response_packet_tag _ _, ?_⟩
    intro i hi
    rw [response_packet_getD _ _ i hi,
      raw_hid_receive_stores _ _ h2 i (by rw [hst]; omega) (by omega)]
  · intro later
    rw [deviceRun_append, e1, ← deviceRun_append]

/-- Two different challenges in a row, `0x11...` then `0xAA...`: the frame
sent on the trigger is the response to the second. -/
theorem second_challenge_overwrites_witness :
    hasTag CMD_CHALLENGE (challenge_packet (List.replicate 32 0x11)) = true
    ∧ hasTag CMD_CHALLENGE (challenge_packet sampleChallenge) = true
    ∧ (deviceRun sampleSecret idle
        [DeviceEvent.receive (challenge_packet (List.replicate 32 0x11)),
          DeviceEvent.receive (challenge_packet sampleChallenge),
          DeviceEvent.trigger []]).sent = [sampleResponse]
    ∧ deviceRun sampleSecret idle
        ([] ++ [DeviceEvent.receive (challenge_packet (List.replicate 32 0x11)),
          DeviceEvent.receive (challenge_packet sampleChallenge)])
      = deviceRun sampleSecret idle
        ([] ++ [DeviceEvent.receive (challenge_packet sampleChallenge)]) :=
  ⟨by decide, by decide, by decide,
    (second_challenge_overwrites sampleSecret [] (challenge_packet (List.replicate 32 0x11))
      (challenge_packet sampleChallenge) [] (by decide) (by decide)).1⟩

/-- Counterexample to C9 as stated: a key file of five bytes is accepted,
and the secret is its first four bytes. -/
theorem oversized_key_file_accepted :
    [0x01, 0x02, 0x03, 0x04, 0x05].length ≠ KEY_SIZE
    ∧ read_auth_key (some { sampleKeyFile with content := [0x01, 0x02, 0x03, 0x04, 0x05] })
      = some [0x01, 0x02, 0x03, 0x04] := by
  decide

/-- C9, amended. `read_auth_key` succeeds only if the key file holds at least
`KEY_SIZE = 4` bytes, and the secret is then exactly its first 4 bytes; a
file shorter than 4 bytes is rejected with an error, never a partial
secret. -/
theorem read_auth_key_size (st : KeyFile) :
    (∀ key, read_auth_key (some st) = some key →
      KEY_SIZE ≤ st.content.length ∧ key = st.content.take KEY_SIZE ∧ key.length = KEY_SIZE)
    ∧ (st.content.length < KEY_SIZE → read_auth_key (some st) = none) := by
  constructor
  · intro key h
    simp only [read_auth_key, fread] at h
    split at h
    · cases h
    · split at h
      · cases h
      · split at h
        · cases h
        · rename_i hl
          have hl2 := not_not.mp hl
          cases h
          refine ⟨?_, rfl, hl2⟩
          rw [List.length_take] at hl2
          omega
  · intro h
    simp only [read_auth_key, fread]
    split
    · rfl
    · split
      · rfl
      · rw [if_pos]
        rw [List.length_take]
        omega

/-- A readable `0400` key file: four bytes load, three bytes do not. -/
theorem read_auth_key_size_witness :
    read_auth_key (some sampleKeyFile) = some sampleSecret
    ∧ KEY_SIZE ≤ sampleKeyFile.content.length
    ∧ ([0x01, 0x02, 0x03].length < KEY_SIZE
      ∧ read_auth_key (some { sampleKeyFile with content := [0x01, 0x02, 0x03] }) = none) :=
  ⟨by decide,
    ((read_auth_key_size sampleKeyFile).1 sampleSecret (by decide)).1,
    by decide,
    (read_auth_key_size { sampleKeyFile with content := [0x01, 0x02, 0x03] }).2 (by decide)⟩

/-- Counterexample to C10 as stated: the AUTH_START and RESPONSE frames the
device sends are 32 bytes long, not `PACKET_SIZE = 64`. -/
theorem device_frames_are_32_bytes :
    (deviceRun sampleSecret idle
        [DeviceEvent.trigger [], DeviceEvent.receive (challenge_packet sampleChallenge),
          DeviceEvent.trigger []]).sent = [start_packet, sampleResponse]
    ∧ start_packet.length = 32 ∧ sampleResponse.length = 32 ∧ 32 ≠ PACKET_SIZE := by
  decide

/-- C10, amended. Every frame the host writes has total length exactly 64,
byte 0 equal to `0x02`, the 32 challenge bytes in bytes 1..32 and zeros in
bytes 33..63.  Every frame the device sends has total length exactly 32 and
is either AUTH_START, byte 0 equal to `0x01` and every later byte zero, or
RESPONSE, byte 0 equal to `0x03` and the 31 payload bytes in bytes 1..31
(filling the frame). -/
theorem frame_format (env : HostEnv) (AUTH_KEY : List Nat) (es : List DeviceEvent) :
    (∀ device data, Effect.hid_write device data ∈ (pam_sm_authenticate env).2 →
      ∃ random, env.urandom = some random ∧ 32 ≤ random.length
        ∧ data.length = 64 ∧ data.getD 0 0 = 0x02
        ∧ (∀ i, i < 32 → data.getD (i + 1) 0 = random.getD i 0)
        ∧ ∀ j, 33 ≤ j → j < 64 → data.getD j 0 = 0)
    ∧ ∀ f ∈ (deviceRun AUTH_KEY idle es).sent,
        f.length = 32
        ∧ ((f.getD 0 0 = 0x01 ∧ ∀ j, 1 ≤ j → j < 32 → f.getD j 0 = 0)
          ∨ (f.getD 0 0 = 0x03 ∧ ∃ lc : List Nat, lc.length = 32 ∧ ∀ i, i < 31 →
              f.getD (i + 1) 0 = lc.getD i 0 ^^^ AUTH_KEY.getD (i % AUTH_KEY.length) 0)) := by
  constructor
  · intro device data h
    obtain ⟨random, hr, hl, hd⟩ := pam_sm_authenticate_write_packet env device data h
    rw [hd]
    refine ⟨random, hr, hl, challenge_packet_length _, ?_, ?_, ?_⟩
    · rw [challenge_packet_getD, if_pos rfl]
      rfl
    · intro i hi
      have e1 : ¬ (i + 1 = 0) := by omega
      have e2 : i + 1 ≤ 32 := by omega
      rw [challenge_packet_getD, if_neg e1, if_pos e2, Nat.add_sub_cancel]
      simp only [fread, SECURITY_CHALLENGE_SIZE, List.getD_eq_getElem?_getD]
      rw [List.getElem?_take_of_lt hi]
    · intro j h1 h2
      have e1 : ¬ (j = 0) := by omega
      have e2 : ¬ (j ≤ 32) := by omega
      rw [challenge_packet_getD, if_neg e1, if_neg e2]
  · intro f hf
    rcases deviceRun_frames AUTH_KEY es f hf with h | ⟨lc, hlc, h⟩ <;> rw [h]
    · refine ⟨by decide, Or.inl ⟨by decide, ?_⟩⟩
      intro j h1 h2
      rw [start_packet_eq]
      obtain ⟨k, rfl⟩ : ∃ k, j = k + 1 := ⟨j - 1, by omega⟩
      simp only [List.getD_eq_getElem?_getD, List.getElem?_cons_succ]
      rw [List.getElem?_replicate, if_pos (by omega)]
      rfl
    · exact ⟨response_packet_length _ _,
        Or.inr ⟨response_packet_tag _ _, lc, hlc, fun i hi => response_packet_getD _ _ i hi⟩⟩

/-- The frames of the sample run and of a trigger, a challenge and a second
trigger on the device. -/
theorem frame_format_witness :
    (∀ device data, Effect.hid_write device data ∈ (pam_sm_authenticate sampleEnv).2 →
      data.length = 64 ∧ data.getD 0 0 = 0x02)
    ∧ Effect.hid_write 1 (challenge_packet sampleChallenge) ∈ (pam_sm_authenticate sampleEnv).2
    ∧ ∀ f ∈ (deviceRun sampleSecret idle
        [DeviceEvent.trigger [], DeviceEvent.receive (challenge_packet sampleChallenge),
          DeviceEvent.trigger []]).sent, f.length = 32 :=
  ⟨fun device data h =>
      match (frame_format sampleEnv sampleSecret []).1 device data h with
      | ⟨_, _, _, h1, h2, _⟩ => ⟨h1, h2⟩,
    by decide,
    fun f hf => ((frame_format sampleEnv sampleSecret
      [DeviceEvent.trigger [], DeviceEvent.receive (challenge_packet sampleChallenge),
        DeviceEvent.trigger []]).2 f hf).1⟩

end PamKeyboardAuth
